import Mathlib

/-!
# DocDB orderable DB instance data source

A shallow embedding of `dataSourceAwsDocdbOrderableDbInstanceRead`
(`aws/data_source_aws_docdb_orderable_db_instance.go`) and the properties of its
request building, default-version block, page enumeration, selection and output binding.

Go pointers (`*string`, `*bool`, pointers to records held in lists) are `Option` values,
`nil` being `none`.  Go `error` values coming from the service client are carried as their
message string.  A nil pointer dereference ends the call in a run-time panic, which is
recorded apart from the returned error.
-/

namespace DocdbOrderable

/-! ## Values of the service SDK -/

/-- The function `aws.StringValue`: the string pointed to, or `""` for a nil pointer. -/
def stringValue (p : Option String) : String :=
  match p with
  | some s => s
  | none => ""

/-- The function `aws.BoolValue`: the boolean pointed to, or `false` for a nil pointer. -/
def boolValue (p : Option Bool) : Bool :=
  match p with
  | some b => b
  | none => false

/-- The record `docdb.AvailabilityZone`.  The type is declared in the service SDK; the
source reads only `Name`. -/
structure AvailabilityZone where
  Name : Option String
deriving DecidableEq, Repr

/-- The record `docdb.OrderableDBInstanceOption`, with the fields the source reads.
`AvailabilityZones` is a `[]*AvailabilityZone`, whose entries may be nil. -/
structure OrderableDBInstanceOption where
  AvailabilityZones : List (Option AvailabilityZone)
  DBInstanceClass : Option String
  Engine : Option String
  EngineVersion : Option String
  LicenseModel : Option String
  Vpc : Option Bool
deriving DecidableEq, Repr

/-- The request `docdb.DescribeOrderableDBInstanceOptionsInput`, with the fields the
source assigns.  `&docdb.DescribeOrderableDBInstanceOptionsInput{}` has every field nil. -/
structure DescribeOrderableDBInstanceOptionsInput where
  DBInstanceClass : Option String
  Engine : Option String
  EngineVersion : Option String
  LicenseModel : Option String
  Vpc : Option Bool
deriving DecidableEq, Repr

/-- One page `docdb.DescribeOrderableDBInstanceOptionsOutput`: a list of pointers to
options, any of which may be nil. -/
structure DescribeOrderableDBInstanceOptionsOutput where
  OrderableDBInstanceOptions : List (Option OrderableDBInstanceOption)
deriving DecidableEq, Repr

/-- The request `docdb.DescribeDBEngineVersionsInput`, with the fields the source assigns. -/
structure DescribeDBEngineVersionsInput where
  DefaultOnly : Option Bool
  Engine : Option String
  EngineVersion : Option String
deriving DecidableEq, Repr

/-- The record `docdb.DBEngineVersion`; the source reads only `EngineVersion`. -/
structure DBEngineVersion where
  EngineVersion : Option String
deriving DecidableEq, Repr

/-- What the service answers to a paged orderable-options request: the pages it delivers,
in order, and the error (if any) met when fetching the page after them. -/
structure PagedResponse where
  pages : List DescribeOrderableDBInstanceOptionsOutput
  err : Option String
deriving DecidableEq, Repr

/-- The client `conn` (`*docdb.DocDB`), as the answers it gives to each request.  An
engine-versions answer is the `[]*DBEngineVersion` of the output, whose entries may be nil. -/
structure DocDBConn where
  DescribeDBEngineVersions :
    DescribeDBEngineVersionsInput → Except String (List (Option DBEngineVersion))
  orderableResponse : DescribeOrderableDBInstanceOptionsInput → PagedResponse

/-- The paging loop of the SDK (`for p.Next() { if !fn(page, !p.HasNextPage()) { break } }`).
A page is the last one when no page follows it and no fetch error follows it.  The result
is the final state, and whether the loop ran through every delivered page. -/
def pagesLoop {σ : Type} (fn : σ → DescribeOrderableDBInstanceOptionsOutput → Bool → σ × Bool)
    (errFollows : Bool) : List DescribeOrderableDBInstanceOptionsOutput → σ → σ × Bool
  | [], s => (s, true)
  | page :: rest, s =>
    let lastPage := rest.isEmpty && !errFollows
    let r := fn s page lastPage
    if r.2 then pagesLoop fn errFollows rest r.1 else (r.1, false)

/-- The method `DescribeOrderableDBInstanceOptionsPages`: runs the callback over the pages
and returns the paginator error, which is met only if the callback never stopped the loop. -/
def DescribeOrderableDBInstanceOptionsPages {σ : Type} (resp : PagedResponse)
    (fn : σ → DescribeOrderableDBInstanceOptionsOutput → Bool → σ × Bool) (s : σ) :
    σ × Option String :=
  let r := pagesLoop fn resp.err.isSome resp.pages s
  (r.1, if r.2 then resp.err else none)

/-! ## The host resource data -/

/-- The host state `*schema.ResourceData` of the data source: the identifier and one slot
per schema attribute, `none` when the attribute has no value.  `preferred_instance_classes`
is a `[]interface{}`; an element that is not a string is `none`. -/
structure ResourceData where
  id : String
  availability_zones : List String
  instance_class : Option String
  default_only : Option Bool
  engine : Option String
  engine_version : Option String
  license_model : Option String
  preferred_instance_classes : List (Option String)
  vpc : Option Bool
deriving DecidableEq, Repr

/-- The method `d.Get` on a string attribute: the value held, else the schema `Default`,
else the zero value `""`. -/
def getString (held : Option String) (schemaDefault : Option String) : String :=
  match held with
  | some v => v
  | none => stringValue schemaDefault

/-- The method `d.Get` on a boolean attribute: the value held, else the schema `Default`,
else the zero value `false`. -/
def getBool (held : Option Bool) (schemaDefault : Option Bool) : Bool :=
  match held with
  | some v => v
  | none => boolValue schemaDefault

/-- The method `d.GetOk` of the plugin SDK on a string attribute: the value, and whether
it has been set to a non-zero value (here: differs from `""`). -/
def getOkString (held : Option String) (schemaDefault : Option String) : String × Bool :=
  let v := getString held schemaDefault
  (v, v != "")

/-- The method `d.GetOk` of the plugin SDK on a boolean attribute: the value, and whether
it has been set to a non-zero value (here: differs from `false`). -/
def getOkBool (held : Option Bool) (schemaDefault : Option Bool) : Bool × Bool :=
  let v := getBool held schemaDefault
  (v, v != false)

/-! ## The read function -/

/-- The errors `dataSourceAwsDocdbOrderableDbInstanceRead` returns, one constructor per
`fmt.Errorf` of the source. -/
inductive ReadError where
  /-- Line 96, "error reading DocDB default engine version: %w". -/
  | defaultEngineVersionUpstream (cause : String)
  /-- Line 100, "no DocDB default engine version found for engine: %v". -/
  | noDefaultEngineVersion (engine : String)
  /-- Line 129, "error reading DocDB orderable DB instance options: %w". -/
  | orderableOptionsUpstream (cause : String)
  /-- Line 133, "no DocDB Orderable DB Instance options found matching criteria". -/
  | noOptionsFound
  /-- Line 160, "multiple DocDB DB Instance Classes (%v) match the criteria". -/
  | multipleMatch (instanceClassResults : List OrderableDBInstanceOption)
  /-- Line 168, "no DocDB DB Instance Classes match the criteria". -/
  | noClassesMatch
deriving DecidableEq, Repr

/-- A request sent to the service, recorded in the order sent. -/
inductive UpstreamCall where
  | engineVersions (input : DescribeDBEngineVersionsInput)
  | orderableOptionsPages (input : DescribeOrderableDBInstanceOptionsInput)
deriving DecidableEq, Repr

/-- Lines 74-86: the outer `input` after the `instance_class`, `engine` and
`engine_version` assignments. -/
def inputBeforeDefaultOnly (d : ResourceData) : DescribeOrderableDBInstanceOptionsInput :=
  let input : DescribeOrderableDBInstanceOptionsInput := ⟨none, none, none, none, none⟩
  let input :=
    match getOkString d.instance_class none with
    | (v, true) => { input with DBInstanceClass := some v }
    | (_, false) => input
  let input :=
    match getOkString d.engine (some "docdb") with
    | (v, true) => { input with Engine := some v }
    | (_, false) => input
  let input :=
    match getOkString d.engine_version none with
    | (v, true) => { input with EngineVersion := some v }
    | (_, false) => input
  input

/-- The condition of line 88, `d.GetOk("default_only")` with `ok && v.(bool)`. -/
def defaultOnlyRequested (d : ResourceData) : Bool :=
  let r := getOkBool d.default_only (some false)
  r.2 && r.1

/-- Outcome of the block of lines 88-104: the error it returns (if any), the request it
sent, the final value of the block-local `input`, which goes out of scope at line 104, and
whether the block ended in a nil dereference. -/
structure DefaultOnlyOutcome where
  err : Option ReadError
  calls : List UpstreamCall
  inner : Option DescribeDBEngineVersionsInput
  panicked : Bool
deriving DecidableEq, Repr

/-- Lines 88-104.  `outer` is the outer `input`; the `input` declared at line 89 is a new
variable of type `DescribeDBEngineVersionsInput` that hides it until the block ends, so
the assignment of line 103 is made to that new variable.  Line 103 reads a field of
`result.DBEngineVersions[0]` unchecked: a nil first entry is a nil dereference. -/
def defaultOnlyBlock (d : ResourceData) (conn : DocDBConn)
    (outer : DescribeOrderableDBInstanceOptionsInput) : DefaultOnlyOutcome :=
  if defaultOnlyRequested d then
    let input : DescribeDBEngineVersionsInput := ⟨some true, outer.Engine, none⟩
    let calls := [UpstreamCall.engineVersions input]
    match conn.DescribeDBEngineVersions input with
    | .error cause => ⟨some (.defaultEngineVersionUpstream cause), calls, some input, false⟩
    | .ok result =>
      match result with
      | [] =>
        ⟨some (.noDefaultEngineVersion (stringValue input.Engine)), calls, some input, false⟩
      | none :: _ => ⟨none, calls, some input, true⟩
      | some first :: _ =>
        let input := { input with EngineVersion := first.EngineVersion }
        ⟨none, calls, some input, false⟩
  else
    ⟨none, [], none, false⟩

/-- Lines 106-112: the `license_model` and `vpc` assignments to the outer `input`. -/
def inputAfterDefaultOnly (d : ResourceData) (input : DescribeOrderableDBInstanceOptionsInput) :
    DescribeOrderableDBInstanceOptionsInput :=
  let input :=
    match getOkString d.license_model (some "na") with
    | (v, true) => { input with LicenseModel := some v }
    | (_, false) => input
  let input :=
    match getOkBool d.vpc none with
    | (v, true) => { input with Vpc := some v }
    | (_, false) => input
  input

/-- The request handed to `DescribeOrderableDBInstanceOptionsPages` at line 117. -/
def orderableInput (d : ResourceData) : DescribeOrderableDBInstanceOptionsInput :=
  inputAfterDefaultOnly d (inputBeforeDefaultOnly d)

/-- Lines 117-126, the page callback: appends the non-nil options of the page to
`instanceClassResults` and returns `!lastPage`. -/
def pageCallback (instanceClassResults : List OrderableDBInstanceOption)
    (resp : DescribeOrderableDBInstanceOptionsOutput) (lastPage : Bool) :
    List OrderableDBInstanceOption × Bool :=
  let acc := resp.OrderableDBInstanceOptions.foldl
    (fun acc instanceOption =>
      match instanceOption with
      | none => acc
      | some o => acc ++ [o])
    instanceClassResults
  (acc, !lastPage)

/-- Lines 115-126: `instanceClassResults` starts nil and the paged call fills it. -/
def enumerate (resp : PagedResponse) : List OrderableDBInstanceOption × Option String :=
  DescribeOrderableDBInstanceOptionsPages resp pageCallback []

/-- Outcome of lines 71-130: the error returned (if any), the requests sent, the value of
`instanceClassResults`, and whether the lines ended in a nil dereference. -/
structure FetchOutcome where
  err : Option ReadError
  calls : List UpstreamCall
  instanceClassResults : List OrderableDBInstanceOption
  panicked : Bool
deriving DecidableEq, Repr

/-- Lines 71-130: builds the request, runs the default-only block, and enumerates the
pages.  On success `instanceClassResults` is the list handed to the selection. -/
def fetchInstanceClassResults (d : ResourceData) (conn : DocDBConn) : FetchOutcome :=
  let input := inputBeforeDefaultOnly d
  let blk := defaultOnlyBlock d conn input
  if blk.panicked then ⟨none, blk.calls, [], true⟩
  else
    match blk.err with
    | some e => ⟨some e, blk.calls, [], false⟩
    | none =>
      let input := inputAfterDefaultOnly d input
      let r := enumerate (conn.orderableResponse input)
      let calls := blk.calls ++ [.orderableOptionsPages input]
      match r.2 with
      | some cause => ⟨some (.orderableOptionsUpstream cause), calls, r.1, false⟩
      | none => ⟨none, calls, r.1, false⟩

/-- Lines 146-151: the first result whose class, read with `aws.StringValue`, equals the
preferred class. -/
def scanResults (preferredInstanceClass : String) :
    List OrderableDBInstanceOption → Option OrderableDBInstanceOption
  | [] => none
  | instanceClassResult :: rest =>
    if preferredInstanceClass == stringValue instanceClassResult.DBInstanceClass then
      some instanceClassResult
    else scanResults preferredInstanceClass rest

/-- Lines 139-156: the loop over the preferred classes; an element that is not a string is
skipped, and the loop stops at the first class with a match. -/
def scanPreferred (instanceClassResults : List OrderableDBInstanceOption) :
    List (Option String) → Option OrderableDBInstanceOption
  | [] => none
  | none :: rest => scanPreferred instanceClassResults rest
  | some preferredInstanceClass :: rest =>
    match scanResults preferredInstanceClass instanceClassResults with
    | some found => some found
    | none => scanPreferred instanceClassResults rest

/-- Lines 175-178: the loop appending `aws.StringValue(az.Name)` for each zone entry.
`az.Name` is read unchecked, so a nil entry is a nil dereference (`none`). -/
def zoneNamesLoop : List (Option AvailabilityZone) → List String → Option (List String)
  | [], availabilityZones => some availabilityZones
  | none :: _, _ => none
  | some az :: rest, availabilityZones =>
    zoneNamesLoop rest (availabilityZones ++ [stringValue az.Name])

/-- Lines 171-184: `d.SetId` and the `d.Set` calls.  `d.Set` with a pointer stores the
value pointed to, and the zero value for a nil pointer.  The result is the resource data
and whether the lines ended in a nil dereference at line 177, in which case the writes of
lines 171 and 173 have been made and those of lines 179-184 have not. -/
def setFound (d : ResourceData) (found : OrderableDBInstanceOption) : ResourceData × Bool :=
  let d := { d with id := stringValue found.DBInstanceClass }
  let d := { d with instance_class := some (stringValue found.DBInstanceClass) }
  match zoneNamesLoop found.AvailabilityZones [] with
  | none => (d, true)
  | some availabilityZones =>
    let d := { d with availability_zones := availabilityZones }
    let d := { d with engine := some (stringValue found.Engine) }
    let d := { d with engine_version := some (stringValue found.EngineVersion) }
    let d := { d with license_model := some (stringValue found.LicenseModel) }
    let d := { d with vpc := some (boolValue found.Vpc) }
    (d, false)

/-- What a call of the read function leaves behind: the error returned (`none` for nil, and
when nothing was returned), the resource data after the call, the requests sent, the final
value of `found`, and whether the call ended in a nil dereference instead of returning. -/
structure ReadOutcome where
  err : Option ReadError
  d : ResourceData
  calls : List UpstreamCall
  found : Option OrderableDBInstanceOption
  panicked : Bool
deriving DecidableEq, Repr

/-- Lines 132-186, on the accumulated `instanceClassResults`. -/
def selectAndSet (d : ResourceData) (calls : List UpstreamCall)
    (instanceClassResults : List OrderableDBInstanceOption) : ReadOutcome :=
  if instanceClassResults.length == 0 then
    ⟨some .noOptionsFound, d, calls, none, false⟩
  else
    let found : Option OrderableDBInstanceOption := none
    let l := d.preferred_instance_classes
    let found := if l.length > 0 then scanPreferred instanceClassResults l else found
    if found.isNone && instanceClassResults.length > 1 then
      ⟨some (.multipleMatch instanceClassResults), d, calls, found, false⟩
    else
      let found :=
        if found.isNone && instanceClassResults.length == 1 then instanceClassResults.head?
        else found
      match found with
      | none => ⟨some .noClassesMatch, d, calls, none, false⟩
      | some f =>
        let written := setFound d f
        ⟨none, written.1, calls, some f, written.2⟩

/-- The function `dataSourceAwsDocdbOrderableDbInstanceRead`. -/
def dataSourceAwsDocdbOrderableDbInstanceRead (d : ResourceData) (conn : DocDBConn) :
    ReadOutcome :=
  let r := fetchInstanceClassResults d conn
  if r.panicked then ⟨none, d, r.calls, none, true⟩
  else
    match r.err with
    | some e => ⟨some e, d, r.calls, none, false⟩
    | none => selectAndSet d r.calls r.instanceClassResults

/-! ## Concrete scenarios -/

/-- A resource data with no attribute set. -/
def unsetData : ResourceData := ⟨"", [], none, none, none, none, none, [], none⟩

/-- An orderable option of the given class for engine version 4.0.0 in two zones. -/
def optionOfClass (cls : String) : OrderableDBInstanceOption :=
  ⟨[some ⟨some "us-east-1a"⟩, some ⟨some "us-east-1b"⟩], some cls, some "docdb", some "4.0.0",
    some "na", some true⟩

/-- An orderable option of the given class whose second zone entry is nil. -/
def optionWithNilZone (cls : String) : OrderableDBInstanceOption :=
  ⟨[some ⟨some "us-east-1a"⟩, none], some cls, some "docdb", some "4.0.0", some "na",
    some true⟩

/-- A client answering every engine-versions request with `versions` and every
orderable-options request with `resp`. -/
def constConn (versions : Except String (List (Option DBEngineVersion)))
    (resp : PagedResponse) :
    DocDBConn :=
  ⟨fun _ => versions, fun _ => resp⟩

/-- Two pages holding the classes db.r5.large and db.r5.xlarge, with nil entries between. -/
def twoClassPages : PagedResponse :=
  ⟨[⟨[none, some (optionOfClass "db.r5.large")]⟩, ⟨[some (optionOfClass "db.r5.xlarge"), none]⟩],
    none⟩

/-- One page holding the class db.r5.large only. -/
def oneClassPage : PagedResponse :=
  ⟨[⟨[some (optionOfClass "db.r5.large")]⟩], none⟩

/-- Two pages: db.r5.large, then db.r5.xlarge with a nil zone entry. -/
def nilZoneTwoClassPages : PagedResponse :=
  ⟨[⟨[some (optionOfClass "db.r5.large")]⟩, ⟨[some (optionWithNilZone "db.r5.xlarge")]⟩], none⟩

/-- One page holding only the class db.r5.large, with a nil zone entry. -/
def nilZoneOneClassPage : PagedResponse :=
  ⟨[⟨[some (optionWithNilZone "db.r5.large")]⟩], none⟩

/-- One page holding a nil entry and nothing else. -/
def nilOnlyPage : PagedResponse :=
  ⟨[⟨[none]⟩], none⟩

/-- Scenario: nothing set but `default_only = true`. -/
def defaultOnlyData : ResourceData := { unsetData with default_only := some true }

/-- Scenario: nothing set but `vpc = false`. -/
def vpcFalseData : ResourceData := { unsetData with vpc := some false }

/-- Scenario: nothing set but `vpc = true`. -/
def vpcTrueData : ResourceData := { unsetData with vpc := some true }

/-- Scenario: a preference list with a non-string element, a class nobody offers, and
then db.r5.xlarge before db.r5.large. -/
def preferXlargeData : ResourceData :=
  { unsetData with
    preferred_instance_classes := [none, some "db.x", some "db.r5.xlarge", some "db.r5.large"] }

/-- Scenario: a preference list naming only a class nobody offers. -/
def preferMissingData : ResourceData :=
  { unsetData with preferred_instance_classes := [some "db.nonexistent"] }

/-- A client whose engine-versions answer is the single version 4.0.0. -/
def defaultVersionConn (resp : PagedResponse) : DocDBConn :=
  constConn (.ok [some ⟨some "4.0.0"⟩]) resp

/-- The request sent when only the schema defaults are in force. -/
def defaultsOnlyInput : DescribeOrderableDBInstanceOptionsInput :=
  { DBInstanceClass := none, Engine := some "docdb", EngineVersion := none,
    LicenseModel := some "na", Vpc := none }

/-! ## Enumeration -/

theorem pageCallback_fst (acc : List OrderableDBInstanceOption)
    (resp : DescribeOrderableDBInstanceOptionsOutput) (lastPage : Bool) :
    (pageCallback acc resp lastPage).1 = acc ++ resp.OrderableDBInstanceOptions.reduceOption := by
  have key : ∀ (xs : List (Option OrderableDBInstanceOption)) (a : List OrderableDBInstanceOption),
      xs.foldl (fun acc instanceOption =>
        match instanceOption with
        | none => acc
        | some o => acc ++ [o]) a = a ++ xs.reduceOption := by
    intro xs
    induction xs with
    | nil => intro a; simp
    | cons x xs ih =>
      intro a
      cases x with
      | none => simpa using ih a
      | some o => simpa using ih (a ++ [o])
  exact key _ _

theorem pageCallback_snd (acc : List OrderableDBInstanceOption)
    (resp : DescribeOrderableDBInstanceOptionsOutput) (lastPage : Bool) :
    (pageCallback acc resp lastPage).2 = !lastPage := rfl

theorem pagesLoop_pageCallback_fst (errFollows : Bool)
    (pages : List DescribeOrderableDBInstanceOptionsOutput)
    (acc : List OrderableDBInstanceOption) :
    (pagesLoop pageCallback errFollows pages acc).1 =
      acc ++ (pages.map (fun p => p.OrderableDBInstanceOptions)).flatten.reduceOption := by
  induction pages generalizing acc with
  | nil => simp [pagesLoop]
  | cons page rest ih =>
    simp only [pagesLoop, pageCallback_snd]
    split
    · rw [ih, pageCallback_fst]
      simp [List.reduceOption_append]
    · rename_i hstop
      have hrest : rest = [] := by
        cases rest with
        | nil => rfl
        | cons q qs => simp at hstop
      subst hrest
      rw [pageCallback_fst]
      simp

theorem pagesLoop_pageCallback_snd (errFollows : Bool)
    (pages : List DescribeOrderableDBInstanceOptionsOutput)
    (acc : List OrderableDBInstanceOption) :
    (pagesLoop pageCallback errFollows pages acc).2 = true ∨ errFollows = false := by
  induction pages generalizing acc with
  | nil => simp [pagesLoop]
  | cons page rest ih =>
    simp only [pagesLoop, pageCallback_snd]
    split
    · exact ih _
    · rename_i hstop
      cases errFollows with
      | false => exact Or.inr rfl
      | true => simp at hstop

theorem enumerate_eq (resp : PagedResponse) :
    enumerate resp =
      ((resp.pages.map (fun p => p.OrderableDBInstanceOptions)).flatten.reduceOption,
        resp.err) := by
  unfold enumerate DescribeOrderableDBInstanceOptionsPages
  simp only [pagesLoop_pageCallback_fst, List.nil_append]
  rcases pagesLoop_pageCallback_snd resp.err.isSome resp.pages [] with h | h
  · simp [h]
  · have hnone : resp.err = none := by
      cases herr : resp.err with
      | none => rfl
      | some e => simp [herr] at h
    simp [hnone]

/-! ## Selection -/

theorem scanResults_eq_none_iff (p : String) (L : List OrderableDBInstanceOption) :
    scanResults p L = none ↔ ∀ x ∈ L, stringValue x.DBInstanceClass ≠ p := by
  induction L with
  | nil => simp [scanResults]
  | cons o rest ih =>
    by_cases h : p = stringValue o.DBInstanceClass
    · simp [scanResults, h]
    · have h2 : stringValue o.DBInstanceClass ≠ p := fun e => h e.symm
      simp [scanResults, h, h2, ih]

theorem scanResults_eq_some (p : String) (L : List OrderableDBInstanceOption)
    (o : OrderableDBInstanceOption) (h : scanResults p L = some o) :
    ∃ l1 l2, L = l1 ++ o :: l2 ∧ stringValue o.DBInstanceClass = p ∧
      ∀ x ∈ l1, stringValue x.DBInstanceClass ≠ p := by
  induction L with
  | nil => simp [scanResults] at h
  | cons a rest ih =>
    by_cases hp : p = stringValue a.DBInstanceClass
    · simp [scanResults, hp] at h
      subst h
      exact ⟨[], rest, by simp, hp.symm, by simp⟩
    · simp [scanResults, hp] at h
      obtain ⟨l1, l2, hL, hc, hpre⟩ := ih h
      refine ⟨a :: l1, l2, by simp [hL], hc, ?_⟩
      intro x hx
      rcases List.mem_cons.mp hx with rfl | hx
      · exact fun e => hp e.symm
      · exact hpre x hx

theorem scanPreferred_eq_none_iff (L : List OrderableDBInstanceOption)
    (P : List (Option String)) :
    scanPreferred L P = none ↔
      ∀ p ∈ P, ∀ x ∈ L, p ≠ some (stringValue x.DBInstanceClass) := by
  induction P with
  | nil => simp [scanPreferred]
  | cons q rest ih =>
    cases q with
    | none => simp [scanPreferred, ih]
    | some c =>
      cases hs : scanResults c L with
      | none =>
        have hn := (scanResults_eq_none_iff c L).mp hs
        simp only [scanPreferred, hs, ih, List.mem_cons, forall_eq_or_imp]
        constructor
        · intro h
          refine ⟨?_, h⟩
          intro x hx e
          exact hn x hx (Option.some.inj e).symm
        · intro h
          exact h.2
      | some o =>
        obtain ⟨l1, l2, hL, hc, -⟩ := scanResults_eq_some c L o hs
        simp only [scanPreferred, hs, List.mem_cons, forall_eq_or_imp]
        constructor
        · intro h
          cases h
        · intro h
          exact absurd (by rw [hc]) (h.1 o (by simp [hL]))

theorem scanPreferred_eq_some (L : List OrderableDBInstanceOption)
    (P : List (Option String)) (o : OrderableDBInstanceOption)
    (h : scanPreferred L P = some o) :
    ∃ pre p post, P = pre ++ some p :: post ∧
      (∀ q ∈ pre, ∀ x ∈ L, q ≠ some (stringValue x.DBInstanceClass)) ∧
      scanResults p L = some o := by
  induction P with
  | nil => simp [scanPreferred] at h
  | cons q rest ih =>
    cases q with
    | none =>
      simp only [scanPreferred] at h
      obtain ⟨pre, p, post, hP, hpre, hs⟩ := ih h
      refine ⟨none :: pre, p, post, by simp [hP], ?_, hs⟩
      intro r hr
      rcases List.mem_cons.mp hr with rfl | hr
      · intro x _ e
        cases e
      · exact hpre r hr
    | some c =>
      cases hs : scanResults c L with
      | none =>
        simp only [scanPreferred, hs] at h
        obtain ⟨pre, p, post, hP, hpre, hs2⟩ := ih h
        refine ⟨some c :: pre, p, post, by simp [hP], ?_, hs2⟩
        intro r hr
        rcases List.mem_cons.mp hr with rfl | hr
        · intro x hx e
          exact (scanResults_eq_none_iff c L).mp hs x hx (Option.some.inj e).symm
        · exact hpre r hr
      | some f =>
        simp only [scanPreferred, hs, Option.some.injEq] at h
        subst h
        exact ⟨[], c, rest, by simp, by simp, hs⟩

theorem scanPreferred_mem (L : List OrderableDBInstanceOption)
    (P : List (Option String)) (o : OrderableDBInstanceOption)
    (h : scanPreferred L P = some o) : o ∈ L := by
  obtain ⟨_, p, _, _, _, hs⟩ := scanPreferred_eq_some L P o h
  obtain ⟨l1, l2, hL, _, _⟩ := scanResults_eq_some p L o hs
  simp [hL]

/-- Lines 132-186 when the preferred classes find `o`. -/
theorem selectAndSet_of_found (d : ResourceData) (calls : List UpstreamCall)
    (L : List OrderableDBInstanceOption) (o : OrderableDBInstanceOption)
    (h : scanPreferred L d.preferred_instance_classes = some o) :
    selectAndSet d calls L = ⟨none, (setFound d o).1, calls, some o, (setFound d o).2⟩ := by
  have hmem := scanPreferred_mem L _ o h
  have hlen : L.length ≠ 0 := by
    cases L with
    | nil => simp at hmem
    | cons a l => simp
  have hP : 0 < d.preferred_instance_classes.length := by
    cases hd : d.preferred_instance_classes with
    | nil => rw [hd] at h; simp [scanPreferred] at h
    | cons q rest => simp
  have hP2 : d.preferred_instance_classes ≠ [] := List.length_pos.mp hP
  simp [selectAndSet, h, hlen, hP, hP2]

/-- Lines 132-134: an empty list is the no-options error. -/
theorem selectAndSet_nil (d : ResourceData) (calls : List UpstreamCall) :
    selectAndSet d calls [] = ⟨some .noOptionsFound, d, calls, none, false⟩ := by
  simp [selectAndSet]

/-- Lines 132-186 when the preferred classes find nothing and one option is listed. -/
theorem selectAndSet_single_of_not_found (d : ResourceData) (calls : List UpstreamCall)
    (o : OrderableDBInstanceOption)
    (h : scanPreferred [o] d.preferred_instance_classes = none) :
    selectAndSet d calls [o] = ⟨none, (setFound d o).1, calls, some o, (setFound d o).2⟩ := by
  simp [selectAndSet, h]

/-- Lines 132-186 when the preferred classes find nothing and several options are listed. -/
theorem selectAndSet_many_of_not_found (d : ResourceData) (calls : List UpstreamCall)
    (a b : OrderableDBInstanceOption) (l : List OrderableDBInstanceOption)
    (h : scanPreferred (a :: b :: l) d.preferred_instance_classes = none) :
    selectAndSet d calls (a :: b :: l) =
      ⟨some (.multipleMatch (a :: b :: l)), d, calls, none, false⟩ := by
  simp [selectAndSet, h]

theorem selectAndSet_calls (d : ResourceData) (calls : List UpstreamCall)
    (L : List OrderableDBInstanceOption) : (selectAndSet d calls L).calls = calls := by
  cases h : scanPreferred L d.preferred_instance_classes with
  | some o => rw [selectAndSet_of_found d calls L o h]
  | none =>
    match L, h with
    | [], _ => rw [selectAndSet_nil]
    | [o], h => rw [selectAndSet_single_of_not_found d calls o h]
    | a :: b :: l, h => rw [selectAndSet_many_of_not_found d calls a b l h]

/-- The read function, once lines 71-130 have succeeded, is lines 132-186. -/
theorem read_of_fetch_ok (d : ResourceData) (conn : DocDBConn)
    (hp : (fetchInstanceClassResults d conn).panicked = false)
    (h : (fetchInstanceClassResults d conn).err = none) :
    dataSourceAwsDocdbOrderableDbInstanceRead d conn =
      selectAndSet d (fetchInstanceClassResults d conn).calls
        (fetchInstanceClassResults d conn).instanceClassResults := by
  simp [dataSourceAwsDocdbOrderableDbInstanceRead, h, hp]

theorem read_of_fetch_err (d : ResourceData) (conn : DocDBConn) (e : ReadError)
    (hp : (fetchInstanceClassResults d conn).panicked = false)
    (h : (fetchInstanceClassResults d conn).err = some e) :
    dataSourceAwsDocdbOrderableDbInstanceRead d conn =
      ⟨some e, d, (fetchInstanceClassResults d conn).calls, none, false⟩ := by
  simp [dataSourceAwsDocdbOrderableDbInstanceRead, h, hp]

theorem read_of_fetch_panicked (d : ResourceData) (conn : DocDBConn)
    (hp : (fetchInstanceClassResults d conn).panicked = true) :
    dataSourceAwsDocdbOrderableDbInstanceRead d conn =
      ⟨none, d, (fetchInstanceClassResults d conn).calls, none, true⟩ := by
  simp [dataSourceAwsDocdbOrderableDbInstanceRead, hp]

/-! ## Writing the option found -/

theorem stringValue_eq_getD (p : Option String) : stringValue p = p.getD "" := by
  cases p <;> rfl

theorem boolValue_eq_getD (p : Option Bool) : boolValue p = p.getD false := by
  cases p <;> rfl

theorem zoneNamesLoop_eq_some (zs : List (Option AvailabilityZone)) (acc names : List String)
    (h : zoneNamesLoop zs acc = some names) :
    ∃ zones : List AvailabilityZone, zs = zones.map some ∧
      names = acc ++ zones.map (fun az => az.Name.getD "") := by
  induction zs generalizing acc with
  | nil =>
    simp only [zoneNamesLoop, Option.some.injEq] at h
    exact ⟨[], rfl, by simp [h]⟩
  | cons z rest ih =>
    cases z with
    | none => simp [zoneNamesLoop] at h
    | some az =>
      simp only [zoneNamesLoop] at h
      obtain ⟨zones, hz, hn⟩ := ih _ h
      refine ⟨az :: zones, by simp [hz], ?_⟩
      rw [hn, stringValue_eq_getD]
      simp

theorem zoneNamesLoop_map_some (zones : List AvailabilityZone) (acc : List String) :
    zoneNamesLoop (zones.map some) acc =
      some (acc ++ zones.map (fun az => az.Name.getD "")) := by
  induction zones generalizing acc with
  | nil => simp [zoneNamesLoop]
  | cons az rest ih =>
    simp only [List.map_cons, zoneNamesLoop]
    rw [ih, stringValue_eq_getD]
    simp

/-- Lines 171-184 when no zone entry is nil. -/
theorem setFound_of_zones (d : ResourceData) (o : OrderableDBInstanceOption)
    (zones : List AvailabilityZone) (hz : o.AvailabilityZones = zones.map some) :
    setFound d o =
      ({ id := o.DBInstanceClass.getD ""
         availability_zones := zones.map (fun az => az.Name.getD "")
         instance_class := some (o.DBInstanceClass.getD "")
         default_only := d.default_only
         engine := some (o.Engine.getD "")
         engine_version := some (o.EngineVersion.getD "")
         license_model := some (o.LicenseModel.getD "")
         preferred_instance_classes := d.preferred_instance_classes
         vpc := some (o.Vpc.getD false) }, false) := by
  have hl := zoneNamesLoop_map_some zones []
  rw [← hz] at hl
  simp only [setFound, hl, stringValue_eq_getD, boolValue_eq_getD, List.nil_append]

/-- Lines 171-184 return without a nil dereference only when no zone entry is nil. -/
theorem zones_of_setFound_returned (d : ResourceData) (o : OrderableDBInstanceOption)
    (h : (setFound d o).2 = false) :
    ∃ zones : List AvailabilityZone, o.AvailabilityZones = zones.map some := by
  cases hl : zoneNamesLoop o.AvailabilityZones [] with
  | none => simp [setFound, hl] at h
  | some names =>
    obtain ⟨zones, hz, -⟩ := zoneNamesLoop_eq_some _ _ _ hl
    exact ⟨zones, hz⟩

/-! ## Requests sent -/

theorem defaultOnlyRequested_iff (d : ResourceData) :
    defaultOnlyRequested d = true ↔ d.default_only = some true := by
  unfold defaultOnlyRequested getOkBool getBool boolValue
  cases h : d.default_only with
  | none => simp
  | some b => cases b <;> simp

theorem inputAfterDefaultOnly_Engine (d : ResourceData)
    (input : DescribeOrderableDBInstanceOptionsInput) :
    (inputAfterDefaultOnly d input).Engine = input.Engine := by
  unfold inputAfterDefaultOnly
  dsimp only
  split <;> split <;> rfl

theorem inputAfterDefaultOnly_Vpc (d : ResourceData)
    (input : DescribeOrderableDBInstanceOptionsInput) :
    (inputAfterDefaultOnly d input).Vpc =
      if d.vpc = some true then some true else input.Vpc := by
  unfold inputAfterDefaultOnly getOkBool getBool boolValue
  rcases hv : d.vpc with _ | _ | _ <;> dsimp only <;> (repeat' split) <;> simp_all

theorem inputBeforeDefaultOnly_Vpc (d : ResourceData) :
    (inputBeforeDefaultOnly d).Vpc = none := by
  unfold inputBeforeDefaultOnly
  dsimp only
  split <;> split <;> split <;> rfl

theorem defaultOnlyBlock_of_not_requested (d : ResourceData) (conn : DocDBConn)
    (outer : DescribeOrderableDBInstanceOptionsInput) (h : defaultOnlyRequested d = false) :
    defaultOnlyBlock d conn outer = ⟨none, [], none, false⟩ := by
  simp [defaultOnlyBlock, h]

theorem defaultOnlyBlock_of_requested (d : ResourceData) (conn : DocDBConn)
    (outer : DescribeOrderableDBInstanceOptionsInput) (h : defaultOnlyRequested d = true) :
    defaultOnlyBlock d conn outer =
      match conn.DescribeDBEngineVersions ⟨some true, outer.Engine, none⟩ with
      | .error cause =>
        ⟨some (.defaultEngineVersionUpstream cause),
          [.engineVersions ⟨some true, outer.Engine, none⟩],
          some ⟨some true, outer.Engine, none⟩, false⟩
      | .ok [] =>
        ⟨some (.noDefaultEngineVersion (stringValue outer.Engine)),
          [.engineVersions ⟨some true, outer.Engine, none⟩],
          some ⟨some true, outer.Engine, none⟩, false⟩
      | .ok (none :: _) =>
        ⟨none, [.engineVersions ⟨some true, outer.Engine, none⟩],
          some ⟨some true, outer.Engine, none⟩, true⟩
      | .ok (some first :: _) =>
        ⟨none, [.engineVersions ⟨some true, outer.Engine, none⟩],
          some ⟨some true, outer.Engine, first.EngineVersion⟩, false⟩ := by
  simp only [defaultOnlyBlock, h, if_true]
  cases conn.DescribeDBEngineVersions ⟨some true, outer.Engine, none⟩ with
  | error cause => rfl
  | ok result =>
    cases result with
    | nil => rfl
    | cons first rest =>
      cases first with
      | none => rfl
      | some v => rfl

/-- Lines 106-130, reached when the default-only block ended without error. -/
theorem fetch_of_block_ok (d : ResourceData) (conn : DocDBConn) (calls : List UpstreamCall)
    (inner : Option DescribeDBEngineVersionsInput)
    (h : defaultOnlyBlock d conn (inputBeforeDefaultOnly d) = ⟨none, calls, inner, false⟩) :
    fetchInstanceClassResults d conn =
      ⟨(enumerate (conn.orderableResponse (orderableInput d))).2.map
          ReadError.orderableOptionsUpstream,
        calls ++ [.orderableOptionsPages (orderableInput d)],
        (enumerate (conn.orderableResponse (orderableInput d))).1, false⟩ := by
  simp only [fetchInstanceClassResults, h, orderableInput]
  cases (enumerate (conn.orderableResponse
    (inputAfterDefaultOnly d (inputBeforeDefaultOnly d)))).2 with
  | none => rfl
  | some cause => rfl

/-- Lines 71-130 when `default_only` is not in force. -/
theorem fetch_of_not_default (d : ResourceData) (conn : DocDBConn)
    (h : defaultOnlyRequested d = false) :
    fetchInstanceClassResults d conn =
      ⟨(enumerate (conn.orderableResponse (orderableInput d))).2.map
          ReadError.orderableOptionsUpstream,
        [.orderableOptionsPages (orderableInput d)],
        (enumerate (conn.orderableResponse (orderableInput d))).1, false⟩ := by
  rw [fetch_of_block_ok d conn [] none (defaultOnlyBlock_of_not_requested d conn _ h)]
  rfl

/-- Lines 71-130 when `default_only` is in force. -/
theorem fetch_of_default (d : ResourceData) (conn : DocDBConn)
    (h : defaultOnlyRequested d = true) :
    fetchInstanceClassResults d conn =
      match conn.DescribeDBEngineVersions ⟨some true, (orderableInput d).Engine, none⟩ with
      | .error cause =>
        ⟨some (.defaultEngineVersionUpstream cause),
          [.engineVersions ⟨some true, (orderableInput d).Engine, none⟩], [], false⟩
      | .ok [] =>
        ⟨some (.noDefaultEngineVersion (stringValue (orderableInput d).Engine)),
          [.engineVersions ⟨some true, (orderableInput d).Engine, none⟩], [], false⟩
      | .ok (none :: _) =>
        ⟨none, [.engineVersions ⟨some true, (orderableInput d).Engine, none⟩], [], true⟩
      | .ok (some _ :: _) =>
        ⟨(enumerate (conn.orderableResponse (orderableInput d))).2.map
            ReadError.orderableOptionsUpstream,
          [.engineVersions ⟨some true, (orderableInput d).Engine, none⟩,
            .orderableOptionsPages (orderableInput d)],
          (enumerate (conn.orderableResponse (orderableInput d))).1, false⟩ := by
  have hE : (orderableInput d).Engine = (inputBeforeDefaultOnly d).Engine :=
    inputAfterDefaultOnly_Engine d _
  have hb := defaultOnlyBlock_of_requested d conn (inputBeforeDefaultOnly d) h
  rw [hE]
  cases hq : conn.DescribeDBEngineVersions ⟨some true, (inputBeforeDefaultOnly d).Engine, none⟩ with
  | error cause =>
    rw [hq] at hb
    simp [fetchInstanceClassResults, hb]
  | ok result =>
    cases result with
    | nil =>
      rw [hq] at hb
      simp [fetchInstanceClassResults, hb]
    | cons first rest =>
      cases first with
      | none =>
        rw [hq] at hb
        simp [fetchInstanceClassResults, hb]
      | some v =>
        rw [hq] at hb
        rw [fetch_of_block_ok d conn _ _ hb]
        rfl

theorem read_calls (d : ResourceData) (conn : DocDBConn) :
    (dataSourceAwsDocdbOrderableDbInstanceRead d conn).calls =
      (fetchInstanceClassResults d conn).calls := by
  cases hp : (fetchInstanceClassResults d conn).panicked with
  | true => rw [read_of_fetch_panicked d conn hp]
  | false =>
    cases h : (fetchInstanceClassResults d conn).err with
    | some e => rw [read_of_fetch_err d conn e hp h]
    | none => rw [read_of_fetch_ok d conn hp h, selectAndSet_calls]

theorem orderable_request_mem_calls (d : ResourceData) (conn : DocDBConn)
    (input : DescribeOrderableDBInstanceOptionsInput)
    (h : UpstreamCall.orderableOptionsPages input ∈
      (dataSourceAwsDocdbOrderableDbInstanceRead d conn).calls) :
    input = orderableInput d := by
  rw [read_calls] at h
  cases hd : defaultOnlyRequested d with
  | false =>
    rw [fetch_of_not_default d conn hd] at h
    simpa using h
  | true =>
    rw [fetch_of_default d conn hd] at h
    cases hq : conn.DescribeDBEngineVersions ⟨some true, (orderableInput d).Engine, none⟩ with
    | error cause => rw [hq] at h; simp at h
    | ok result =>
      cases result with
      | nil => rw [hq] at h; simp at h
      | cons first rest =>
        cases first with
        | none => rw [hq] at h; simp at h
        | some v => rw [hq] at h; simpa using h

/-- The errors lines 71-130 can return, each with the upstream answer that causes it. -/
theorem fetch_err_cases (d : ResourceData) (conn : DocDBConn) (e : ReadError)
    (h : (fetchInstanceClassResults d conn).err = some e) :
    (∃ cause, e = .defaultEngineVersionUpstream cause ∧ d.default_only = some true ∧
      conn.DescribeDBEngineVersions ⟨some true, (orderableInput d).Engine, none⟩ =
        .error cause) ∨
    (∃ cause, e = .orderableOptionsUpstream cause ∧
      (conn.orderableResponse (orderableInput d)).err = some cause) ∨
    (e = .noDefaultEngineVersion (stringValue (orderableInput d).Engine) ∧
      d.default_only = some true ∧
      conn.DescribeDBEngineVersions ⟨some true, (orderableInput d).Engine, none⟩ = .ok []) := by
  have henum : ∀ cause,
      (enumerate (conn.orderableResponse (orderableInput d))).2.map
        ReadError.orderableOptionsUpstream = some e →
      (enumerate (conn.orderableResponse (orderableInput d))).2 = some cause →
      e = .orderableOptionsUpstream cause ∧
        (conn.orderableResponse (orderableInput d)).err = some cause := by
    intro cause h1 h2
    rw [h2] at h1
    rw [enumerate_eq] at h2
    exact ⟨(Option.some.inj h1).symm, h2⟩
  cases hd : defaultOnlyRequested d with
  | false =>
    rw [fetch_of_not_default d conn hd] at h
    simp only at h
    cases h2 : (enumerate (conn.orderableResponse (orderableInput d))).2 with
    | none => rw [h2] at h; cases h
    | some cause => exact Or.inr (Or.inl ⟨cause, henum cause h h2⟩)
  | true =>
    have hdo := (defaultOnlyRequested_iff d).mp hd
    rw [fetch_of_default d conn hd] at h
    cases hq : conn.DescribeDBEngineVersions ⟨some true, (orderableInput d).Engine, none⟩ with
    | error cause =>
      rw [hq] at h
      exact Or.inl ⟨cause, (Option.some.inj h).symm, hdo, rfl⟩
    | ok result =>
      cases result with
      | nil =>
        rw [hq] at h
        exact Or.inr (Or.inr ⟨(Option.some.inj h).symm, hdo, rfl⟩)
      | cons first rest =>
        cases first with
        | none => rw [hq] at h; cases h
        | some v =>
          rw [hq] at h
          simp only at h
          cases h2 : (enumerate (conn.orderableResponse (orderableInput d))).2 with
          | none => rw [h2] at h; cases h
          | some cause => exact Or.inr (Or.inl ⟨cause, henum cause h h2⟩)

/-! ## The claims -/

/-- C1, evaluated on the code: with `default_only = true` and an engine-versions answer
whose first entry is 4.0.0, the request sent to `DescribeOrderableDBInstanceOptionsPages`
has no engine version at all; the version of line 103 went to the block-local request. -/
theorem default_version_not_forwarded :
    (dataSourceAwsDocdbOrderableDbInstanceRead defaultOnlyData
        (defaultVersionConn oneClassPage)).calls =
      [.engineVersions { DefaultOnly := some true, Engine := some "docdb", EngineVersion := none },
        .orderableOptionsPages
          { DBInstanceClass := none, Engine := some "docdb", EngineVersion := none,
            LicenseModel := some "na", Vpc := none }] := by
  decide

/-- The selection of lines 136-157 on a matching preference: once lines 71-130 succeed with
the list `L` and some preferred class equals the class (read with `aws.StringValue`) of
some option of `L`, no error is returned and the option found is the first one of `L`
whose class is the earliest preferred class having any match; when none of its zone
entries is nil the call returns nil with its fields written. -/
theorem preferred_match_finds_first (d : ResourceData) (conn : DocDBConn)
    (calls : List UpstreamCall) (L : List OrderableDBInstanceOption)
    (hfetch : fetchInstanceClassResults d conn = ⟨none, calls, L, false⟩)
    (hmatch : ∃ p ∈ d.preferred_instance_classes, ∃ x ∈ L,
      p = some (stringValue x.DBInstanceClass)) :
    ∃ pre p post l1 o l2,
      d.preferred_instance_classes = pre ++ some p :: post ∧
      (∀ q ∈ pre, ∀ x ∈ L, q ≠ some (x.DBInstanceClass.getD "")) ∧
      L = l1 ++ o :: l2 ∧
      o.DBInstanceClass.getD "" = p ∧
      (∀ x ∈ l1, x.DBInstanceClass.getD "" ≠ p) ∧
      (dataSourceAwsDocdbOrderableDbInstanceRead d conn).err = none ∧
      (dataSourceAwsDocdbOrderableDbInstanceRead d conn).found = some o ∧
      ((∀ z ∈ o.AvailabilityZones, z ≠ none) →
        dataSourceAwsDocdbOrderableDbInstanceRead d conn =
          ⟨none, (setFound d o).1, calls, some o, false⟩) := by
  have hp : (fetchInstanceClassResults d conn).panicked = false := by rw [hfetch]
  have herr : (fetchInstanceClassResults d conn).err = none := by rw [hfetch]
  have hread := read_of_fetch_ok d conn hp herr
  rw [hfetch] at hread
  simp only at hread
  cases hs : scanPreferred L d.preferred_instance_classes with
  | none =>
    obtain ⟨p, hp, x, hx, hpx⟩ := hmatch
    exact absurd hpx ((scanPreferred_eq_none_iff L _).mp hs p hp x hx)
  | some o =>
    obtain ⟨pre, p, post, hP, hpre, hres⟩ := scanPreferred_eq_some L _ o hs
    obtain ⟨l1, l2, hL, hc, hl1⟩ := scanResults_eq_some p L o hres
    simp only [stringValue_eq_getD] at hpre hc hl1
    refine ⟨pre, p, post, l1, o, l2, hP, hpre, hL, hc, hl1, ?_, ?_, ?_⟩
    · rw [hread, selectAndSet_of_found d calls L o hs]
    · rw [hread, selectAndSet_of_found d calls L o hs]
    · intro hz
      have hzones : ∃ zones : List AvailabilityZone, o.AvailabilityZones = zones.map some := by
        refine ⟨o.AvailabilityZones.reduceOption, ?_⟩
        generalize o.AvailabilityZones = zs at hz
        induction zs with
        | nil => rfl
        | cons z rest ih =>
          cases z with
          | none => exact absurd rfl (hz none (by simp))
          | some az =>
            have := ih (fun w hw => hz w (List.mem_cons_of_mem _ hw))
            simp [List.reduceOption_cons_of_some, ← this]
      obtain ⟨zones, hzs⟩ := hzones
      rw [hread, selectAndSet_of_found d calls L o hs, setFound_of_zones d o zones hzs]

/-- C2, evaluated on the code: db.r5.xlarge is preferred and listed, so it is found, but
its second zone entry is nil: the call does not return.  It ends in the nil dereference of
line 177, after the writes of lines 171 and 173 and before those of lines 179-184. -/
theorem preferred_match_with_nil_zone_panics :
    dataSourceAwsDocdbOrderableDbInstanceRead preferXlargeData
        (defaultVersionConn nilZoneTwoClassPages) =
      { err := none
        d := { preferXlargeData with
          id := "db.r5.xlarge", instance_class := some "db.r5.xlarge" }
        calls := [.orderableOptionsPages defaultsOnlyInput]
        found := some (optionWithNilZone "db.r5.xlarge")
        panicked := true } := by
  decide

/-- C3 as stated fails: with `vpc = false` set by the caller, the request sent to
`DescribeOrderableDBInstanceOptionsPages` has no vpc predicate, `d.GetOk` reporting a
`false` value as not set. -/
theorem vpc_false_not_forwarded :
    vpcFalseData.vpc = some false ∧
      (dataSourceAwsDocdbOrderableDbInstanceRead vpcFalseData
          (defaultVersionConn oneClassPage)).calls =
        [.orderableOptionsPages
          { DBInstanceClass := none, Engine := some "docdb", EngineVersion := none,
            LicenseModel := some "na", Vpc := none }] := by
  decide

/-- C3, amended: a request sent to `DescribeOrderableDBInstanceOptionsPages` has the vpc
predicate `true` when the caller set `vpc` to true, and no vpc predicate when the caller
set `vpc` to false or gave no value. -/
theorem vpc_forwarded_only_when_true (d : ResourceData) (conn : DocDBConn)
    (input : DescribeOrderableDBInstanceOptionsInput)
    (hsent : UpstreamCall.orderableOptionsPages input ∈
      (dataSourceAwsDocdbOrderableDbInstanceRead d conn).calls) :
    (d.vpc = some true → input.Vpc = some true) ∧
      (d.vpc = some false → input.Vpc = none) ∧
      (d.vpc = none → input.Vpc = none) := by
  have hin := orderable_request_mem_calls d conn input hsent
  have hv : input.Vpc = if d.vpc = some true then some true else none := by
    rw [hin, orderableInput, inputAfterDefaultOnly_Vpc, inputBeforeDefaultOnly_Vpc]
  refine ⟨?_, ?_, ?_⟩ <;> intro h <;> simp [hv, h]

/-- C3 amended, on a concrete read with `vpc = true`. -/
theorem vpc_forwarded_only_when_true_witness :
    UpstreamCall.orderableOptionsPages ⟨none, some "docdb", none, some "na", some true⟩ ∈
        (dataSourceAwsDocdbOrderableDbInstanceRead vpcTrueData
          (defaultVersionConn oneClassPage)).calls ∧
      (vpcTrueData.vpc = some true →
        (⟨none, some "docdb", none, some "na", some true⟩ :
          DescribeOrderableDBInstanceOptionsInput).Vpc = some true) :=
  ⟨by decide,
    (vpc_forwarded_only_when_true vpcTrueData (defaultVersionConn oneClassPage)
      ⟨none, some "docdb", none, some "na", some true⟩ (by decide)).1⟩

/-- C4: when lines 71-130 succeed with a list `L` of more than one option and the
preference list is empty or none of its elements equals the class of any option of `L`,
the read returns the "multiple DocDB DB Instance Classes" error carrying `L`, finds no
option and leaves the resource data as it was. -/
theorem unmatched_preferences_are_ambiguous (d : ResourceData) (conn : DocDBConn)
    (calls : List UpstreamCall) (L : List OrderableDBInstanceOption)
    (hfetch : fetchInstanceClassResults d conn = ⟨none, calls, L, false⟩)
    (hlen : 1 < L.length)
    (hno : d.preferred_instance_classes = [] ∨
      ∀ p ∈ d.preferred_instance_classes, ∀ x ∈ L,
        p ≠ some (stringValue x.DBInstanceClass)) :
    dataSourceAwsDocdbOrderableDbInstanceRead d conn =
      ⟨some (.multipleMatch L), d, calls, none, false⟩ := by
  have hp : (fetchInstanceClassResults d conn).panicked = false := by rw [hfetch]
  have herr : (fetchInstanceClassResults d conn).err = none := by rw [hfetch]
  have hread := read_of_fetch_ok d conn hp herr
  rw [hfetch] at hread
  simp only at hread
  have hs : scanPreferred L d.preferred_instance_classes = none := by
    rcases hno with hnil | hall
    · rw [hnil]; rfl
    · exact (scanPreferred_eq_none_iff L _).mpr hall
  rw [hread]
  match L, hlen, hs with
  | a :: b :: l, _, hs => exact selectAndSet_many_of_not_found d calls a b l hs

/-- C4 on a concrete read: two classes offered, one preference that matches neither. -/
theorem unmatched_preferences_are_ambiguous_witness :
    dataSourceAwsDocdbOrderableDbInstanceRead preferMissingData
        (defaultVersionConn twoClassPages) =
      ⟨some (.multipleMatch [optionOfClass "db.r5.large", optionOfClass "db.r5.xlarge"]),
        preferMissingData, [.orderableOptionsPages defaultsOnlyInput], none, false⟩ :=
  unmatched_preferences_are_ambiguous preferMissingData (defaultVersionConn twoClassPages)
    [.orderableOptionsPages defaultsOnlyInput]
    [optionOfClass "db.r5.large", optionOfClass "db.r5.xlarge"] (by decide) (by decide)
    (Or.inr (by decide))

/-- The selection of lines 136-166 on a single option: once lines 71-130 succeed with a
list holding exactly one option, no error is returned and that option is found, whatever
the preference list is; the outcome is that of writing it with lines 171-184. -/
theorem sole_option_is_found (d : ResourceData) (conn : DocDBConn)
    (calls : List UpstreamCall) (o : OrderableDBInstanceOption)
    (hfetch : fetchInstanceClassResults d conn = ⟨none, calls, [o], false⟩) :
    dataSourceAwsDocdbOrderableDbInstanceRead d conn =
      ⟨none, (setFound d o).1, calls, some o, (setFound d o).2⟩ := by
  have hp : (fetchInstanceClassResults d conn).panicked = false := by rw [hfetch]
  have herr : (fetchInstanceClassResults d conn).err = none := by rw [hfetch]
  have hread := read_of_fetch_ok d conn hp herr
  rw [hfetch] at hread
  simp only at hread
  rw [hread]
  cases hs : scanPreferred [o] d.preferred_instance_classes with
  | none => rw [selectAndSet_single_of_not_found d calls o hs]
  | some f =>
    have hmem := scanPreferred_mem [o] _ f hs
    have hf : f = o := by simpa using hmem
    subst hf
    rw [selectAndSet_of_found d calls [f] f hs]

/-- C5, evaluated on the code: the only option listed is found, but its second zone entry
is nil: the call does not return.  It ends in the nil dereference of line 177, after the
writes of lines 171 and 173 and before those of lines 179-184. -/
theorem sole_option_with_nil_zone_panics :
    dataSourceAwsDocdbOrderableDbInstanceRead unsetData
        (defaultVersionConn nilZoneOneClassPage) =
      { err := none
        d := { unsetData with id := "db.r5.large", instance_class := some "db.r5.large" }
        calls := [.orderableOptionsPages defaultsOnlyInput]
        found := some (optionWithNilZone "db.r5.large")
        panicked := true } := by
  decide

/-- C6 as stated fails: with `default_only = true` and an engine-versions request that
succeeds with no entry, the read returns the "no DocDB default engine version found" error.
No upstream call failed, nothing is ambiguous, and the listing the service holds for the
request is not empty: it has one option. -/
theorem resolver_not_found_with_option_listed :
    dataSourceAwsDocdbOrderableDbInstanceRead defaultOnlyData
        (constConn (.ok []) oneClassPage) =
      { err := some (.noDefaultEngineVersion "docdb")
        d := defaultOnlyData
        calls := [.engineVersions
          { DefaultOnly := some true, Engine := some "docdb", EngineVersion := none }]
        found := none
        panicked := false } ∧
    (constConn (.ok []) oneClassPage).DescribeDBEngineVersions
        { DefaultOnly := some true, Engine := some "docdb", EngineVersion := none } = .ok [] ∧
    enumerate ((constConn (.ok []) oneClassPage).orderableResponse
        (orderableInput defaultOnlyData)) = ([optionOfClass "db.r5.large"], none) := by
  refine ⟨by decide, rfl, by decide⟩

/-- C6, amended: when lines 71-130 succeed with an empty list the read returns the
"no DocDB Orderable DB Instance options found" error, whatever the preference list is, and
leaves the resource data as it was; when they succeed with a non-empty list `L` the
error returned is nil or the "multiple DocDB DB Instance Classes" error; and every error
the read returns is one of: a failure of either upstream call, the multiple-match error on
a list of more than one option, the no-options error on an empty list, or the
"no DocDB default engine version found" error of the default-only block on an
engine-versions answer without entries. -/
theorem read_errors_classified (d : ResourceData) (conn : DocDBConn) :
    (∀ calls, fetchInstanceClassResults d conn = ⟨none, calls, [], false⟩ →
      dataSourceAwsDocdbOrderableDbInstanceRead d conn =
        ⟨some .noOptionsFound, d, calls, none, false⟩) ∧
    (∀ calls L, fetchInstanceClassResults d conn = ⟨none, calls, L, false⟩ → L ≠ [] →
      (dataSourceAwsDocdbOrderableDbInstanceRead d conn).err = none ∨
        (dataSourceAwsDocdbOrderableDbInstanceRead d conn).err = some (.multipleMatch L)) ∧
    (∀ e, (dataSourceAwsDocdbOrderableDbInstanceRead d conn).err = some e →
      (∃ cause, e = .defaultEngineVersionUpstream cause ∧ d.default_only = some true ∧
        conn.DescribeDBEngineVersions ⟨some true, (orderableInput d).Engine, none⟩ =
          .error cause) ∨
      (∃ cause, e = .orderableOptionsUpstream cause ∧
        (conn.orderableResponse (orderableInput d)).err = some cause) ∨
      (e = .multipleMatch (fetchInstanceClassResults d conn).instanceClassResults ∧
        (fetchInstanceClassResults d conn).err = none ∧
        1 < (fetchInstanceClassResults d conn).instanceClassResults.length) ∨
      (e = .noOptionsFound ∧
        (fetchInstanceClassResults d conn).err = none ∧
        (fetchInstanceClassResults d conn).instanceClassResults = []) ∨
      (e = .noDefaultEngineVersion ((orderableInput d).Engine.getD "") ∧
        d.default_only = some true ∧
        conn.DescribeDBEngineVersions ⟨some true, (orderableInput d).Engine, none⟩ =
          .ok [])) := by
  refine ⟨?_, ?_, ?_⟩
  · intro calls hfetch
    have hp : (fetchInstanceClassResults d conn).panicked = false := by rw [hfetch]
    have herr : (fetchInstanceClassResults d conn).err = none := by rw [hfetch]
    rw [read_of_fetch_ok d conn hp herr, hfetch]
    exact selectAndSet_nil d calls
  · intro calls L hfetch hL
    have hp : (fetchInstanceClassResults d conn).panicked = false := by rw [hfetch]
    have herr : (fetchInstanceClassResults d conn).err = none := by rw [hfetch]
    rw [read_of_fetch_ok d conn hp herr, hfetch]
    simp only
    cases hs : scanPreferred L d.preferred_instance_classes with
    | some o => rw [selectAndSet_of_found d calls L o hs]; exact Or.inl rfl
    | none =>
      match L, hL, hs with
      | [o], _, hs => rw [selectAndSet_single_of_not_found d calls o hs]; exact Or.inl rfl
      | a :: b :: l, _, hs =>
        rw [selectAndSet_many_of_not_found d calls a b l hs]; exact Or.inr rfl
  · intro e he
    cases hp : (fetchInstanceClassResults d conn).panicked with
    | true =>
      rw [read_of_fetch_panicked d conn hp] at he
      cases he
    | false =>
      cases hf : (fetchInstanceClassResults d conn).err with
      | some e2 =>
        rw [read_of_fetch_err d conn e2 hp hf] at he
        have hee : e2 = e := Option.some.inj he
        subst hee
        rcases fetch_err_cases d conn e2 hf with h1 | h2 | h3
        · exact Or.inl h1
        · exact Or.inr (Or.inl h2)
        · rw [stringValue_eq_getD] at h3
          exact Or.inr (Or.inr (Or.inr (Or.inr h3)))
      | none =>
        rw [read_of_fetch_ok d conn hp hf] at he
        generalize (fetchInstanceClassResults d conn).calls = calls at he
        generalize (fetchInstanceClassResults d conn).instanceClassResults = L at he ⊢
        cases hs : scanPreferred L d.preferred_instance_classes with
        | some o =>
          rw [selectAndSet_of_found d calls L o hs] at he
          cases he
        | none =>
          match L, hs, he with
          | [], _, he =>
            rw [selectAndSet_nil] at he
            exact Or.inr (Or.inr (Or.inr (Or.inl ⟨(Option.some.inj he).symm, rfl, rfl⟩)))
          | [o], hs, he =>
            rw [selectAndSet_single_of_not_found d calls o hs] at he
            cases he
          | a :: b :: l, hs, he =>
            rw [selectAndSet_many_of_not_found d calls a b l hs] at he
            exact Or.inr (Or.inr (Or.inl ⟨(Option.some.inj he).symm, rfl, by simp⟩))

/-- C6 amended, on concrete reads: a listing of nil entries only gives the no-options
error; two classes listed without preference give nil or the multiple-match error; and the
error of a read whose engine-versions answer has no entry falls in one of the five cases. -/
theorem read_errors_classified_witness :
    dataSourceAwsDocdbOrderableDbInstanceRead preferMissingData
        (defaultVersionConn nilOnlyPage) =
      ⟨some .noOptionsFound, preferMissingData, [.orderableOptionsPages defaultsOnlyInput],
        none, false⟩ ∧
    ((dataSourceAwsDocdbOrderableDbInstanceRead unsetData
        (defaultVersionConn twoClassPages)).err = none ∨
      (dataSourceAwsDocdbOrderableDbInstanceRead unsetData
        (defaultVersionConn twoClassPages)).err =
          some (.multipleMatch [optionOfClass "db.r5.large", optionOfClass "db.r5.xlarge"])) ∧
    ((∃ cause, ReadError.noDefaultEngineVersion "docdb" =
          .defaultEngineVersionUpstream cause ∧
        defaultOnlyData.default_only = some true ∧
        (constConn (.ok []) oneClassPage).DescribeDBEngineVersions
          ⟨some true, (orderableInput defaultOnlyData).Engine, none⟩ = .error cause) ∨
      (∃ cause, ReadError.noDefaultEngineVersion "docdb" = .orderableOptionsUpstream cause ∧
        ((constConn (.ok []) oneClassPage).orderableResponse
          (orderableInput defaultOnlyData)).err = some cause) ∨
      (ReadError.noDefaultEngineVersion "docdb" =
          .multipleMatch (fetchInstanceClassResults defaultOnlyData
            (constConn (.ok []) oneClassPage)).instanceClassResults ∧
        (fetchInstanceClassResults defaultOnlyData
          (constConn (.ok []) oneClassPage)).err = none ∧
        1 < (fetchInstanceClassResults defaultOnlyData
          (constConn (.ok []) oneClassPage)).instanceClassResults.length) ∨
      (ReadError.noDefaultEngineVersion "docdb" = .noOptionsFound ∧
        (fetchInstanceClassResults defaultOnlyData
          (constConn (.ok []) oneClassPage)).err = none ∧
        (fetchInstanceClassResults defaultOnlyData
          (constConn (.ok []) oneClassPage)).instanceClassResults = []) ∨
      (ReadError.noDefaultEngineVersion "docdb" =
          .noDefaultEngineVersion ((orderableInput defaultOnlyData).Engine.getD "") ∧
        defaultOnlyData.default_only = some true ∧
        (constConn (.ok []) oneClassPage).DescribeDBEngineVersions
          ⟨some true, (orderableInput defaultOnlyData).Engine, none⟩ = .ok [])) :=
  ⟨(read_errors_classified preferMissingData (defaultVersionConn nilOnlyPage)).1
      [.orderableOptionsPages defaultsOnlyInput] (by decide),
    (read_errors_classified unsetData (defaultVersionConn twoClassPages)).2.1
      [.orderableOptionsPages defaultsOnlyInput]
      [optionOfClass "db.r5.large", optionOfClass "db.r5.xlarge"] (by decide) (by decide),
    (read_errors_classified defaultOnlyData (constConn (.ok []) oneClassPage)).2.2
      (.noDefaultEngineVersion "docdb") (by decide)⟩

/-- C7: whenever the read returns an error, the resource data after the call is the
resource data it was called with, identifier and every attribute included. -/
theorem failed_read_leaves_resource_data (d : ResourceData) (conn : DocDBConn)
    (hfail : (dataSourceAwsDocdbOrderableDbInstanceRead d conn).err ≠ none) :
    (dataSourceAwsDocdbOrderableDbInstanceRead d conn).d = d := by
  cases hp : (fetchInstanceClassResults d conn).panicked with
  | true => rw [read_of_fetch_panicked d conn hp]
  | false =>
    cases hf : (fetchInstanceClassResults d conn).err with
    | some e => rw [read_of_fetch_err d conn e hp hf]
    | none =>
      rw [read_of_fetch_ok d conn hp hf] at hfail ⊢
      generalize (fetchInstanceClassResults d conn).calls = calls at hfail ⊢
      generalize (fetchInstanceClassResults d conn).instanceClassResults = L at hfail ⊢
      cases hs : scanPreferred L d.preferred_instance_classes with
      | some o =>
        rw [selectAndSet_of_found d calls L o hs] at hfail
        exact absurd rfl hfail
      | none =>
        match L, hs, hfail with
        | [], _, _ => rw [selectAndSet_nil]
        | [o], hs, hfail =>
          rw [selectAndSet_single_of_not_found d calls o hs] at hfail
          exact absurd rfl hfail
        | a :: b :: l, hs, _ => rw [selectAndSet_many_of_not_found d calls a b l hs]

/-- C7 on a concrete read that fails on the engine-versions request. -/
theorem failed_read_leaves_resource_data_witness :
    (dataSourceAwsDocdbOrderableDbInstanceRead defaultOnlyData
        (constConn (.error "timeout") oneClassPage)).err ≠ none ∧
      (dataSourceAwsDocdbOrderableDbInstanceRead defaultOnlyData
        (constConn (.error "timeout") oneClassPage)).d = defaultOnlyData :=
  ⟨by decide,
    failed_read_leaves_resource_data defaultOnlyData
      (constConn (.error "timeout") oneClassPage) (by decide)⟩

/-- C8: for every sequence of pages and whether or not a fetch error follows them, the
list accumulated by the page callback is the concatenation of the pages' option lists, in
page order, with the nil entries removed. -/
theorem enumerated_results_are_pages_without_nil
    (pages : List DescribeOrderableDBInstanceOptionsOutput) (err : Option String) :
    (enumerate ⟨pages, err⟩).1 =
      (pages.map (fun p => p.OrderableDBInstanceOptions)).flatten.reduceOption := by
  rw [enumerate_eq]

/-- C9: whenever the read returns nil (no error, and it does return), lines 71-130
succeeded, the option found is a member of the accumulated list, none of its zone entries
is nil, and the resource data holds its fields: identifier and `instance_class` are its
class, `engine`, `engine_version`, `license_model` and `vpc` are the values its fields of
the same name point to, and `availability_zones` is the list of its zones' names in
order; a nil pointer is stored as the zero value (`""`, `false`), and the other attributes
are kept. -/
theorem successful_read_writes_found_option (d : ResourceData) (conn : DocDBConn)
    (hok : (dataSourceAwsDocdbOrderableDbInstanceRead d conn).err = none)
    (hret : (dataSourceAwsDocdbOrderableDbInstanceRead d conn).panicked = false) :
    ∃ (o : OrderableDBInstanceOption) (zones : List AvailabilityZone),
      (fetchInstanceClassResults d conn).err = none ∧
      (fetchInstanceClassResults d conn).panicked = false ∧
      o ∈ (fetchInstanceClassResults d conn).instanceClassResults ∧
      (dataSourceAwsDocdbOrderableDbInstanceRead d conn).found = some o ∧
      o.AvailabilityZones = zones.map some ∧
      (dataSourceAwsDocdbOrderableDbInstanceRead d conn).d =
        { id := o.DBInstanceClass.getD ""
          availability_zones := zones.map (fun az => az.Name.getD "")
          instance_class := some (o.DBInstanceClass.getD "")
          default_only := d.default_only
          engine := some (o.Engine.getD "")
          engine_version := some (o.EngineVersion.getD "")
          license_model := some (o.LicenseModel.getD "")
          preferred_instance_classes := d.preferred_instance_classes
          vpc := some (o.Vpc.getD false) } := by
  have key : ∀ (calls : List UpstreamCall) (o : OrderableDBInstanceOption),
      (⟨none, (setFound d o).1, calls, some o, (setFound d o).2⟩ : ReadOutcome).panicked =
        false →
      ∃ zones : List AvailabilityZone, o.AvailabilityZones = zones.map some ∧
        (setFound d o).1 =
          { id := o.DBInstanceClass.getD ""
            availability_zones := zones.map (fun az => az.Name.getD "")
            instance_class := some (o.DBInstanceClass.getD "")
            default_only := d.default_only
            engine := some (o.Engine.getD "")
            engine_version := some (o.EngineVersion.getD "")
            license_model := some (o.LicenseModel.getD "")
            preferred_instance_classes := d.preferred_instance_classes
            vpc := some (o.Vpc.getD false) } := by
    intro calls o h
    obtain ⟨zones, hz⟩ := zones_of_setFound_returned d o h
    exact ⟨zones, hz, by rw [setFound_of_zones d o zones hz]⟩
  cases hp : (fetchInstanceClassResults d conn).panicked with
  | true =>
    rw [read_of_fetch_panicked d conn hp] at hret
    cases hret
  | false =>
    cases hf : (fetchInstanceClassResults d conn).err with
    | some e =>
      rw [read_of_fetch_err d conn e hp hf] at hok
      cases hok
    | none =>
      rw [read_of_fetch_ok d conn hp hf] at hok hret ⊢
      generalize (fetchInstanceClassResults d conn).calls = calls at hok hret ⊢
      generalize (fetchInstanceClassResults d conn).instanceClassResults = L at hok hret ⊢
      cases hs : scanPreferred L d.preferred_instance_classes with
      | some o =>
        rw [selectAndSet_of_found d calls L o hs] at hret ⊢
        obtain ⟨zones, hz, hd⟩ := key calls o hret
        exact ⟨o, zones, rfl, rfl, scanPreferred_mem L _ o hs, rfl, hz, hd⟩
      | none =>
        match L, hs, hok, hret with
        | [], _, hok, _ =>
          rw [selectAndSet_nil] at hok
          cases hok
        | [o], hs, _, hret =>
          rw [selectAndSet_single_of_not_found d calls o hs] at hret ⊢
          obtain ⟨zones, hz, hd⟩ := key calls o hret
          exact ⟨o, zones, rfl, rfl, by simp, rfl, hz, hd⟩
        | a :: b :: l, hs, hok, _ =>
          rw [selectAndSet_many_of_not_found d calls a b l hs] at hok
          cases hok

/-- C9 on a concrete read: the preferred db.r5.xlarge is found and written. -/
theorem successful_read_writes_found_option_witness :
    ∃ (o : OrderableDBInstanceOption) (zones : List AvailabilityZone),
      (fetchInstanceClassResults preferXlargeData (defaultVersionConn twoClassPages)).err =
        none ∧
      (fetchInstanceClassResults preferXlargeData
        (defaultVersionConn twoClassPages)).panicked = false ∧
      o ∈ (fetchInstanceClassResults preferXlargeData
        (defaultVersionConn twoClassPages)).instanceClassResults ∧
      (dataSourceAwsDocdbOrderableDbInstanceRead preferXlargeData
        (defaultVersionConn twoClassPages)).found = some o ∧
      o.AvailabilityZones = zones.map some ∧
      (dataSourceAwsDocdbOrderableDbInstanceRead preferXlargeData
        (defaultVersionConn twoClassPages)).d =
        { id := o.DBInstanceClass.getD ""
          availability_zones := zones.map (fun az => az.Name.getD "")
          instance_class := some (o.DBInstanceClass.getD "")
          default_only := preferXlargeData.default_only
          engine := some (o.Engine.getD "")
          engine_version := some (o.EngineVersion.getD "")
          license_model := some (o.LicenseModel.getD "")
          preferred_instance_classes := preferXlargeData.preferred_instance_classes
          vpc := some (o.Vpc.getD false) } :=
  successful_read_writes_found_option preferXlargeData (defaultVersionConn twoClassPages)
    (by decide) (by decide)

/-- C10: with `default_only = true` the first request sent is an engine-versions request
with `DefaultOnly = true` and the engine of the main request; if it fails the read returns
the "error reading DocDB default engine version" error, if it answers with no entry the
read returns the "no DocDB default engine version found" error, and in both cases that
request is the only one sent and the resource data is untouched.  With `default_only`
false or not set, no engine-versions request is sent. -/
theorem default_only_block_contract (d : ResourceData) (conn : DocDBConn) :
    (d.default_only = some true →
      (∃ later, (dataSourceAwsDocdbOrderableDbInstanceRead d conn).calls =
        .engineVersions ⟨some true, (orderableInput d).Engine, none⟩ :: later) ∧
      (∀ cause,
        conn.DescribeDBEngineVersions ⟨some true, (orderableInput d).Engine, none⟩ =
          .error cause →
        dataSourceAwsDocdbOrderableDbInstanceRead d conn =
          ⟨some (.defaultEngineVersionUpstream cause), d,
            [.engineVersions ⟨some true, (orderableInput d).Engine, none⟩], none, false⟩) ∧
      (conn.DescribeDBEngineVersions ⟨some true, (orderableInput d).Engine, none⟩ = .ok [] →
        dataSourceAwsDocdbOrderableDbInstanceRead d conn =
          ⟨some (.noDefaultEngineVersion (stringValue (orderableInput d).Engine)), d,
            [.engineVersions ⟨some true, (orderableInput d).Engine, none⟩], none, false⟩)) ∧
    (d.default_only ≠ some true →
      ∀ q, UpstreamCall.engineVersions q ∉
        (dataSourceAwsDocdbOrderableDbInstanceRead d conn).calls) := by
  constructor
  · intro hd
    have hreq := (defaultOnlyRequested_iff d).mpr hd
    have hfetch := fetch_of_default d conn hreq
    refine ⟨?_, ?_, ?_⟩
    · rw [read_calls, hfetch]
      cases conn.DescribeDBEngineVersions ⟨some true, (orderableInput d).Engine, none⟩ with
      | error cause => exact ⟨[], rfl⟩
      | ok result =>
        cases result with
        | nil => exact ⟨[], rfl⟩
        | cons first rest =>
          cases first with
          | none => exact ⟨[], rfl⟩
          | some v => exact ⟨_, rfl⟩
    · intro cause hq
      rw [hq] at hfetch
      have hp : (fetchInstanceClassResults d conn).panicked = false := by rw [hfetch]
      have herr : (fetchInstanceClassResults d conn).err =
          some (.defaultEngineVersionUpstream cause) := by rw [hfetch]
      rw [read_of_fetch_err d conn _ hp herr, hfetch]
    · intro hq
      rw [hq] at hfetch
      have hp : (fetchInstanceClassResults d conn).panicked = false := by rw [hfetch]
      have herr : (fetchInstanceClassResults d conn).err =
          some (.noDefaultEngineVersion (stringValue (orderableInput d).Engine)) := by
        rw [hfetch]
      rw [read_of_fetch_err d conn _ hp herr, hfetch]
  · intro hd q hq
    have hreq : defaultOnlyRequested d = false := by
      cases h : defaultOnlyRequested d with
      | false => rfl
      | true => exact absurd ((defaultOnlyRequested_iff d).mp h) hd
    rw [read_calls, fetch_of_not_default d conn hreq] at hq
    simp at hq

/-- C10 on concrete reads: a failing engine-versions request, and a read without
`default_only`, which sends the orderable-options request only. -/
theorem default_only_block_contract_witness :
    dataSourceAwsDocdbOrderableDbInstanceRead defaultOnlyData
        (constConn (.error "timeout") oneClassPage) =
      ⟨some (.defaultEngineVersionUpstream "timeout"), defaultOnlyData,
        [.engineVersions ⟨some true, some "docdb", none⟩], none, false⟩ ∧
    UpstreamCall.engineVersions ⟨some true, some "docdb", none⟩ ∉
      (dataSourceAwsDocdbOrderableDbInstanceRead unsetData
        (defaultVersionConn oneClassPage)).calls :=
  ⟨((default_only_block_contract defaultOnlyData
      (constConn (.error "timeout") oneClassPage)).1 rfl).2.1 "timeout" rfl,
    (default_only_block_contract unsetData (defaultVersionConn oneClassPage)).2
      (by decide) _⟩

end DocdbOrderable
